import Mathlib

/-!
Verification development for the rlib embedded relational-data access layer.

The definitions below are shallow embeddings of the TypeScript source:
  * `JSValue` models runtime JavaScript values as the library dispatches on
    them (`typeof`, `Array.isArray`, `instanceof Date`); a `Date` is carried
    by its `toISOString()` rendering, and `other` covers values whose
    `typeof` is none of the supported kinds (functions, symbols), carried by
    their `String(value)` rendering.
  * `Postgres.*` embeds the row-store dialect compiler (query-read with
    `processLogicalOperators`, condition builder, literal formatter and
    result mapper).
  * `Oracle.*` embeds the enterprise dialect (oracle/query-read.ts,
    oracle/query-util.ts, oracle/query-write.ts).
  * `PostgresLegacy.*` embeds src/server/db/postgres/query.ts (the variant
    without logical-operator handling in the WHERE builder).
  * The write engines are modeled as trace-producing runners over an
    abstract statement executor `db : String → Except String Unit`;
    BEGIN/COMMIT/ROLLBACK are control events and the relation-cascade
    statements (whose text depends on runtime row values) are passed as a
    statement list.
-/

namespace Rlib

/-- A JavaScript runtime value, as the library dispatches on values. -/
inductive JSValue where
  | null
  | undefined
  | str (s : String)
  | num (n : Int)
  | bool (b : Bool)
  | date (iso : String)
  | arr (xs : List JSValue)
  | obj (fields : List (String × JSValue))
  | other (repr : String)
deriving Repr, BEq

/-- The single-quote character, kept as a named constant. -/
def sqc : Char := Char.ofNat 39

/-- A string holding one single quote. -/
def squote : String := String.singleton sqc

/-- Wrap a string in double quotes (identifier quoting on both dialects). -/
def dq (s : String) : String := "\"" ++ s ++ "\""

/-- Doubling of single quotes, the `value.replace(/'/g, "''")` escaping. -/
def escSq (s : String) : String :=
  String.join (s.data.map fun c => if c = sqc then squote ++ squote else String.singleton c)

/-- JavaScript truthiness of a value (`if (x)`), as used by the source. -/
def jsTruthy : JSValue → Bool
  | .null => false
  | .undefined => false
  | .str s => !s.isEmpty
  | .num n => n != 0
  | .bool b => b
  | .date _ => true
  | .arr _ => true
  | .obj _ => true
  | .other _ => true

/-- The string escaping performed by `JSON.stringify` on string contents
(control-character escapes are not modeled; no theorem relies on them). -/
def jsonEscape (s : String) : String :=
  String.join (s.data.map fun c =>
    if c = '\\' then "\\\\" else if c = '"' then "\\\"" else String.singleton c)

/-- Whether `JSON.stringify` omits an object field holding this value. -/
def jsonOmitted : JSValue → Bool
  | .undefined => true
  | .other _ => true
  | _ => false

mutual

/-- Models the `JSON.stringify` builtin on the values the library feeds it
(a `Date` serializes via its ISO string; an omitted-kind value inside an
array renders as `null`, mirroring the builtin). -/
def jsonStringify : JSValue → String
  | .null => "null"
  | .undefined => "null"
  | .str s => "\"" ++ jsonEscape s ++ "\""
  | .num n => toString n
  | .bool b => Bool.rec "false" "true" b
  | .date iso => "\"" ++ iso ++ "\""
  | .arr xs => "[" ++ jsonStringifyArr xs ++ "]"
  | .obj fs => "\x7b" ++ jsonStringifyObj fs ++ "\x7d"
  | .other _ => "null"

/-- Comma-joined list of `JSON.stringify` renderings of array elements. -/
def jsonStringifyArr : List JSValue → String
  | [] => ""
  | [x] => jsonStringify x
  | x :: y :: rest => jsonStringify x ++ "," ++ jsonStringifyArr (y :: rest)

/-- Comma-joined `JSON.stringify` of object fields; fields holding values
the builtin omits (`undefined`, functions) are skipped. -/
def jsonStringifyObj : List (String × JSValue) → String
  | [] => ""
  | p :: rest =>
      if jsonOmitted p.2 then jsonStringifyObj rest
      else
        let this := "\"" ++ jsonEscape p.1 ++ "\":" ++ jsonStringify p.2
        let restStr := jsonStringifyObj rest
        if restStr.isEmpty then this else this ++ "," ++ restStr

end

mutual

/-- The `String(value)` coercion as used in the sources (a `Date` is
represented here by its ISO rendering). -/
def jsToString : JSValue → String
  | .null => "null"
  | .undefined => "undefined"
  | .str s => s
  | .num n => toString n
  | .bool b => Bool.rec "false" "true" b
  | .date iso => iso
  | .arr xs => jsToStringArr xs
  | .obj _ => "[object Object]"
  | .other r => r

/-- Comma-joined `String(...)` rendering of array elements. -/
def jsToStringArr : List JSValue → String
  | [] => ""
  | [x] => jsToString x
  | x :: y :: rest => jsToString x ++ "," ++ jsToStringArr (y :: rest)

end

/-- The `.toUpperCase()` string method (modeled per character over the
ASCII range the registry identifiers use). -/
def jsToUpper (s : String) : String := String.mk (s.data.map Char.toUpper)

/-- The `.toLowerCase()` string method (same ASCII modeling note). -/
def jsToLower (s : String) : String := String.mk (s.data.map Char.toLower)

/-! ## Model registry (src/server/db/types-gen.ts shapes) -/

/-- A column description: its declared type name and primary-key flag. -/
structure ColumnDef where
  ctype : String
  is_primary_key : Bool
deriving Repr, BEq

/-- The cardinality of a relation. -/
inductive RelationKind where
  | belongs_to
  | has_one
  | has_many
deriving Repr, BEq, DecidableEq

/-- The remote side of a relation: target model name and join column. -/
structure RelTarget where
  model : String
  column : String
deriving Repr, BEq

/-- A relation description; `fromCol` and `toRef` embed the source fields
`from` and `to` (both Lean keywords): the local join column and the remote
side. -/
structure RelationDef where
  rtype : RelationKind
  fromCol : String
  toRef : RelTarget
deriving Repr, BEq

/-- A model: table name plus ordered column and relation maps (association
lists preserving JavaScript object key order). -/
structure ModelDefinition where
  table : String
  columns : List (String × ColumnDef)
  relations : List (String × RelationDef)
deriving Repr, BEq

/-- The model registry handed to every compiler: model name → definition. -/
abbrev Models := List (String × ModelDefinition)

/-- Key lookup in a JavaScript-object-like association list. -/
def alook {α : Type} (fields : List (String × α)) (key : String) : Option α :=
  List.lookup key fields

/-- `getRelation` as defined in both query-read modules: look the model up,
then its relation map. -/
def getRelation (models : Models) (modelName : String) (relationName : String) :
    Option RelationDef :=
  match alook models modelName with
  | none => none
  | some modelDef => alook modelDef.relations relationName

/-- Reading a field of a JavaScript row object: a missing key reads as
`undefined`. -/
def rowGet (row : List (String × JSValue)) (key : String) : JSValue :=
  (alook row key).getD .undefined

/-- `processedRow[k] = v` on a JavaScript object: overwrite in place or
append, preserving key order. -/
def objSet (o : List (String × JSValue)) (key : String) (v : JSValue) :
    List (String × JSValue) :=
  match o with
  | [] => [(key, v)]
  | (k, w) :: rest => if k = key then (key, v) :: rest else (k, w) :: objSet rest key v

/-! ## Dialect literal formatters -/

namespace Postgres

mutual

/-- `formatValue` of the row-store dialect, byte-identical in
src/server/db/postgres/query.ts, postgres/query-util.ts and the
query-read module: null → NULL, string → single-quote doubled, number →
decimal, boolean → TRUE/FALSE, Date → quoted ISO string, array →
`ARRAY[...]`, object → quoted JSON; anything else falls through to
`String(value)` quoted. -/
def formatValue : JSValue → String
  | .null => "NULL"
  | .str s => squote ++ escSq s ++ squote
  | .num n => toString n
  | .bool b => Bool.rec "FALSE" "TRUE" b
  | .date iso => squote ++ iso ++ squote
  | .arr xs => "ARRAY[" ++ formatValueList xs ++ "]"
  | .obj fs => squote ++ escSq (jsonStringify (.obj fs)) ++ squote
  | .undefined => squote ++ escSq "undefined" ++ squote
  | .other r => squote ++ escSq r ++ squote

/-- `value.map(formatValue).join(", ")`. -/
def formatValueList : List JSValue → String
  | [] => ""
  | [x] => formatValue x
  | x :: y :: rest => formatValue x ++ ", " ++ formatValueList (y :: rest)

end

/-- `buildConditionStr` of the row-store query-read module (the variant
with NULL special-casing): `eq`/`neq` against `null` become `IS NULL` /
`IS NOT NULL` (other operators against `null` also give `IS NULL`);
`in`/`nin` against a nonempty array list the formatted elements and
otherwise give `1=0` / `1=1`; unknown operators give `1=1`. -/
def buildConditionStr (tableName field operator : String) (value : JSValue) : String :=
  let columnRef := dq tableName ++ "." ++ dq field
  match value with
  | .null =>
    match operator with
    | "eq" => columnRef ++ " IS NULL"
    | "neq" => columnRef ++ " IS NOT NULL"
    | _ => columnRef ++ " IS NULL"
  | v =>
    match operator with
    | "eq" => columnRef ++ " = " ++ formatValue v
    | "neq" => columnRef ++ " != " ++ formatValue v
    | "gt" => columnRef ++ " > " ++ formatValue v
    | "gte" => columnRef ++ " >= " ++ formatValue v
    | "lt" => columnRef ++ " < " ++ formatValue v
    | "lte" => columnRef ++ " <= " ++ formatValue v
    | "like" => columnRef ++ " LIKE " ++ formatValue v
    | "ilike" => columnRef ++ " ILIKE " ++ formatValue v
    | "in" =>
      match v with
      | .arr (x :: xs) => columnRef ++ " IN (" ++ formatValueList (x :: xs) ++ ")"
      | _ => "1=0"
    | "nin" =>
      match v with
      | .arr (x :: xs) => columnRef ++ " NOT IN (" ++ formatValueList (x :: xs) ++ ")"
      | _ => "1=1"
    | _ => "1=1"

end Postgres

namespace Oracle

/-- `formatIdentifier` of oracle/query-util.ts: double-quote the name. -/
def formatIdentifier (name : String) : String := dq name

mutual

/-- `formatValue` of oracle/query-util.ts: booleans render as 1/0, a Date
as a `TO_TIMESTAMP(...)` expression, an array as a parenthesized
comma-separated list; the final fallback is again `String(value)`
quoted. -/
def formatValue : JSValue → String
  | .null => "NULL"
  | .str s => squote ++ escSq s ++ squote
  | .num n => toString n
  | .bool b => Bool.rec "0" "1" b
  | .date iso =>
      "TO_TIMESTAMP(" ++ squote ++ iso ++ squote ++ ", " ++ squote ++
        "YYYY-MM-DD\"T\"HH24:MI:SS.FF3\"Z\"" ++ squote ++ ")"
  | .arr xs => "(" ++ formatValueList xs ++ ")"
  | .obj fs => squote ++ escSq (jsonStringify (.obj fs)) ++ squote
  | .undefined => squote ++ escSq "undefined" ++ squote
  | .other r => squote ++ escSq r ++ squote

/-- `value.map(formatValue).join(", ")`. -/
def formatValueList : List JSValue → String
  | [] => ""
  | [x] => formatValue x
  | x :: y :: rest => formatValue x ++ ", " ++ formatValueList (y :: rest)

end

/-- `buildConditionStr` of oracle/query-read.ts: NULL special-casing as on
the row-store dialect; `ilike` lowers to `UPPER(..) LIKE UPPER(..)`;
`in`/`nin` against a nonempty array delegate the parenthesized list to
`formatValue` and otherwise give `1=0` / `1=1`. -/
def buildConditionStr (tableName field operator : String) (value : JSValue) : String :=
  let columnRef := formatIdentifier tableName ++ "." ++ formatIdentifier field
  match value with
  | .null =>
    match operator with
    | "eq" => columnRef ++ " IS NULL"
    | "neq" => columnRef ++ " IS NOT NULL"
    | _ => columnRef ++ " IS NULL"
  | v =>
    match operator with
    | "eq" => columnRef ++ " = " ++ formatValue v
    | "neq" => columnRef ++ " != " ++ formatValue v
    | "gt" => columnRef ++ " > " ++ formatValue v
    | "gte" => columnRef ++ " >= " ++ formatValue v
    | "lt" => columnRef ++ " < " ++ formatValue v
    | "lte" => columnRef ++ " <= " ++ formatValue v
    | "like" => columnRef ++ " LIKE " ++ formatValue v
    | "ilike" => "UPPER(" ++ columnRef ++ ") LIKE UPPER(" ++ formatValue v ++ ")"
    | "in" =>
      match v with
      | .arr (x :: xs) => columnRef ++ " IN " ++ formatValue (.arr (x :: xs))
      | _ => "1=0"
    | "nin" =>
      match v with
      | .arr (x :: xs) => columnRef ++ " NOT IN " ++ formatValue (.arr (x :: xs))
      | _ => "1=1"
    | _ => "1=1"

end Oracle

namespace Postgres

/-- `if (conditionStr) conditions.push(conditionStr)`: keep a built
condition only when the string is truthy (non-empty). -/
def pushIf (s : String) : List String := if s.isEmpty then [] else [s]

/-- `String(value).replace(/[%_]/g, "\\$&")`: backslash-escape LIKE
wildcards in a sugar pattern. -/
def likeEscape (s : String) : String :=
  String.join (s.data.map fun c =>
    if c = '%' || c = '_' then "\\" ++ String.singleton c else String.singleton c)

/-- One pass over an operator map `{op: value, ...}` for a column field in
the row-store query-read module: the string sugar `endsWith`, `startsWith`
and `contains` lower to `ilike` with a `%`-wrapped escaped pattern; every
other key goes to `buildConditionStr` directly. -/
def opsConds (tableName field : String) : List (String × JSValue) → List String
  | [] => []
  | (op, value) :: rest =>
    (if op = "endsWith" || op = "startsWith" || op = "contains" then
      let pattern :=
        if op = "endsWith" then "%" ++ likeEscape (jsToString value)
        else if op = "startsWith" then likeEscape (jsToString value) ++ "%"
        else "%" ++ likeEscape (jsToString value) ++ "%"
      pushIf (buildConditionStr tableName field "ilike" (.str pattern))
    else
      pushIf (buildConditionStr tableName field op value)) ++ opsConds tableName field rest

/-- One pass over an operator map for a related model field (no string
sugar in the relation branch of the source). -/
def relOps (targetModelName relField : String) : List (String × JSValue) → List String
  | [] => []
  | (op, value) :: rest =>
    pushIf (buildConditionStr targetModelName relField op value) ++
      relOps targetModelName relField rest

/-- The per-field loop of the relation branch: a direct (non-object,
non-null) value is an equality shorthand, an object is an operator map,
`null`/`undefined` contribute nothing. -/
def relConds (targetModelName : String) : List (String × JSValue) → List String
  | [] => []
  | (relField, relCondition) :: rest =>
    (match relCondition with
     | .null => []
     | .undefined => []
     | .obj ops => relOps targetModelName relField ops
     | v => pushIf (buildConditionStr targetModelName relField "eq" v)) ++
      relConds targetModelName rest

/-- The correlated `EXISTS` subquery template of the row-store query-read
module (both the conditioned and the plain template literal, which differ
only by the interpolated condition suffix). -/
def existsSubquery (targetTable targetModelName toColumn tableName fromCol whereStr : String) :
    String :=
  "EXISTS (\n          SELECT 1 \n          FROM " ++ dq targetTable ++ " AS " ++
    dq targetModelName ++ "\n          WHERE " ++ dq targetModelName ++ "." ++ dq toColumn ++
    " = " ++ dq tableName ++ "." ++ dq fromCol ++ whereStr ++ "\n        )"

/-- The column-or-relation dispatch for one non-logical-operator entry of a
where object: a declared column takes the equality-shorthand / operator-map
path; otherwise the key is resolved as a relation and compiled to a
correlated `EXISTS` (a missing relation or target model contributes
nothing). Modeling notes: `Object.keys(cond).length > 0` gating the
conditioned `EXISTS` is only checked for plain objects here; a relation
condition that is a non-empty JS array or `null` (degenerate inputs whose
source behavior is index-entry iteration or a thrown `TypeError`) is
modeled as the plain existence check. -/
def fieldOrRelation (models : Models) (modelName : String) (modelDef : ModelDefinition)
    (field : String) (cond : JSValue) : List String :=
  if (alook modelDef.columns field).isSome then
    match cond with
    | .null => []
    | .undefined => []
    | .obj ops => opsConds modelName field ops
    | v => pushIf (buildConditionStr modelName field "eq" v)
  else
    match getRelation models modelName field with
    | none => []
    | some relationDef =>
      match alook models relationDef.toRef.model with
      | none => []
      | some targetModelDef =>
        let targetModelName := relationDef.toRef.model
        match cond with
        | .obj (e :: es) =>
          let relationWhereClauses := relConds targetModelName (e :: es)
          let relationWhereStr :=
            if relationWhereClauses.isEmpty then ""
            else " AND " ++ String.intercalate " AND " relationWhereClauses
          [existsSubquery targetModelDef.table targetModelName relationDef.toRef.column
            modelName relationDef.fromCol relationWhereStr]
        | _ =>
          [existsSubquery targetModelDef.table targetModelName relationDef.toRef.column
            modelName relationDef.fromCol ""]

mutual

/-- `processLogicalOperators` of the row-store query-read module: compiles
a where tree (a JS object) to a boolean SQL string; an unknown model or an
empty condition list yields the tautology `1=1`, otherwise the collected
conditions are joined with `AND`. A non-object where tree is modeled as
having no entries. -/
def processLogicalOperators (models : Models) (modelName : String) (w : JSValue) : String :=
  match w with
  | .obj fs =>
    (match alook models modelName with
     | none => "1=1"
     | some modelDef =>
       let conditions := ploEntries models modelName modelDef fs
       if conditions.isEmpty then "1=1" else String.intercalate " AND " conditions)
  | _ => "1=1"
termination_by sizeOf w

/-- The entry loop of `processLogicalOperators`, concatenating the
conditions contributed by each `[field, condition]` entry in order. -/
def ploEntries (models : Models) (modelName : String) (modelDef : ModelDefinition)
    (fs : List (String × JSValue)) : List String :=
  match fs with
  | [] => []
  | (field, condition) :: rest =>
    ploEntry models modelName modelDef field condition ++
      ploEntries models modelName modelDef rest
termination_by sizeOf fs

/-- One entry of a where object: `AND`/`OR` with an array payload recurse
into the children and wrap the joined result in parentheses (an empty
child list contributes nothing); `NOT` with a truthy object-typed payload
recurses and wraps in `NOT (...)`; everything else is a column or relation
condition. -/
def ploEntry (models : Models) (modelName : String) (modelDef : ModelDefinition)
    (field : String) (condition : JSValue) : List String :=
  match field, condition with
  | "AND", .arr ws =>
    let andConditions := ploChildren models modelName ws
    if andConditions.isEmpty then []
    else ["(" ++ String.intercalate " AND " andConditions ++ ")"]
  | "OR", .arr ws =>
    let orConditions := ploChildren models modelName ws
    if orConditions.isEmpty then []
    else ["(" ++ String.intercalate " OR " orConditions ++ ")"]
  | "NOT", .obj fs2 =>
    ["NOT (" ++ processLogicalOperators models modelName (.obj fs2) ++ ")"]
  | "NOT", .arr ws2 =>
    ["NOT (" ++ processLogicalOperators models modelName (.arr ws2) ++ ")"]
  | "NOT", .date d =>
    ["NOT (" ++ processLogicalOperators models modelName (.date d) ++ ")"]
  | f, cond => fieldOrRelation models modelName modelDef f cond
termination_by sizeOf condition + 1

/-- `condition.map(cond => processLogicalOperators(modelName, cond, models))`
over the children of an `AND`/`OR` payload. -/
def ploChildren (models : Models) (modelName : String) (ws : List JSValue) : List String :=
  match ws with
  | [] => []
  | w :: rest => processLogicalOperators models modelName w :: ploChildren models modelName rest
termination_by sizeOf ws

end

/-- `buildWhereClauseStr` of the row-store query-read module delegates to
`processLogicalOperators`. -/
def buildWhereClauseStr (models : Models) (modelName : String) (w : JSValue) : String :=
  processLogicalOperators models modelName w

end Postgres

namespace Oracle

/-- `if (conditionStr) conditions.push(conditionStr)` on the Oracle side. -/
def pushIf (s : String) : List String := if s.isEmpty then [] else [s]

/-- `String(value).replace(/%/g, "\\%").replace(/_/g, "\\_")`: the two
sequential wildcard-escaping passes of oracle/query-read.ts. -/
def likeEscape (s : String) : String :=
  let first := String.join (s.data.map fun c =>
    if c = '%' then "\\" ++ String.singleton c else String.singleton c)
  String.join (first.data.map fun c =>
    if c = '_' then "\\" ++ String.singleton c else String.singleton c)

/-- One pass over an operator map for a column field in
oracle/query-read.ts: the string sugar lowers to `like` (not `ilike`)
with a `%`-wrapped escaped pattern. -/
def opsConds (tableName field : String) : List (String × JSValue) → List String
  | [] => []
  | (op, value) :: rest =>
    (if op = "endsWith" || op = "startsWith" || op = "contains" then
      let pattern :=
        if op = "endsWith" then "%" ++ likeEscape (jsToString value)
        else if op = "startsWith" then likeEscape (jsToString value) ++ "%"
        else "%" ++ likeEscape (jsToString value) ++ "%"
      pushIf (buildConditionStr tableName field "like" (.str pattern))
    else
      pushIf (buildConditionStr tableName field op value)) ++ opsConds tableName field rest

/-- One pass over an operator map for a related model field. -/
def relOps (targetModelName relField : String) : List (String × JSValue) → List String
  | [] => []
  | (op, value) :: rest =>
    pushIf (buildConditionStr targetModelName relField op value) ++
      relOps targetModelName relField rest

/-- The per-field loop of the Oracle relation branch. -/
def relConds (targetModelName : String) : List (String × JSValue) → List String
  | [] => []
  | (relField, relCondition) :: rest =>
    (match relCondition with
     | .null => []
     | .undefined => []
     | .obj ops => relOps targetModelName relField ops
     | v => pushIf (buildConditionStr targetModelName relField "eq" v)) ++
      relConds targetModelName rest

/-- The correlated `EXISTS` subquery template of oracle/query-read.ts
(note the line break after the `=` in the join predicate). -/
def existsSubquery (targetTable targetModelName toColumn tableName fromCol whereStr : String) :
    String :=
  "EXISTS (\n          SELECT 1 \n          FROM " ++ formatIdentifier targetTable ++ " " ++
    formatIdentifier targetModelName ++ "\n          WHERE " ++
    formatIdentifier targetModelName ++ "." ++ formatIdentifier toColumn ++
    " = \n                " ++ formatIdentifier tableName ++ "." ++
    formatIdentifier fromCol ++ whereStr ++ "\n        )"

/-- The column-or-relation dispatch of oracle/query-read.ts (same modeling
notes as the row-store version for degenerate relation conditions). -/
def fieldOrRelation (models : Models) (modelName : String) (modelDef : ModelDefinition)
    (field : String) (cond : JSValue) : List String :=
  if (alook modelDef.columns field).isSome then
    match cond with
    | .null => []
    | .undefined => []
    | .obj ops => opsConds modelName field ops
    | v => pushIf (buildConditionStr modelName field "eq" v)
  else
    match getRelation models modelName field with
    | none => []
    | some relationDef =>
      match alook models relationDef.toRef.model with
      | none => []
      | some targetModelDef =>
        let targetModelName := relationDef.toRef.model
        match cond with
        | .obj (e :: es) =>
          let relationWhereClauses := relConds targetModelName (e :: es)
          let relationWhereStr :=
            if relationWhereClauses.isEmpty then ""
            else " AND " ++ String.intercalate " AND " relationWhereClauses
          [existsSubquery targetModelDef.table targetModelName relationDef.toRef.column
            modelName relationDef.fromCol relationWhereStr]
        | _ =>
          [existsSubquery targetModelDef.table targetModelName relationDef.toRef.column
            modelName relationDef.fromCol ""]

mutual

/-- `processLogicalOperators` of oracle/query-read.ts: same structure as
the row-store version (logical keys, column conditions, `EXISTS`
relations), with the Oracle condition builder and subquery layout; an
unknown model or an empty condition list yields `1=1`. -/
def processLogicalOperators (models : Models) (modelName : String) (w : JSValue) : String :=
  match w with
  | .obj fs =>
    (match alook models modelName with
     | none => "1=1"
     | some modelDef =>
       let conditions := ploEntries models modelName modelDef fs
       if conditions.isEmpty then "1=1" else String.intercalate " AND " conditions)
  | _ => "1=1"
termination_by sizeOf w

/-- The entry loop of the Oracle `processLogicalOperators`. -/
def ploEntries (models : Models) (modelName : String) (modelDef : ModelDefinition)
    (fs : List (String × JSValue)) : List String :=
  match fs with
  | [] => []
  | (field, condition) :: rest =>
    ploEntry models modelName modelDef field condition ++
      ploEntries models modelName modelDef rest
termination_by sizeOf fs

/-- One entry of an Oracle where object (`AND`/`OR`/`NOT` recursion, then
column or relation dispatch). -/
def ploEntry (models : Models) (modelName : String) (modelDef : ModelDefinition)
    (field : String) (condition : JSValue) : List String :=
  match field, condition with
  | "AND", .arr ws =>
    let andConditions := ploChildren models modelName ws
    if andConditions.isEmpty then []
    else ["(" ++ String.intercalate " AND " andConditions ++ ")"]
  | "OR", .arr ws =>
    let orConditions := ploChildren models modelName ws
    if orConditions.isEmpty then []
    else ["(" ++ String.intercalate " OR " orConditions ++ ")"]
  | "NOT", .obj fs2 =>
    ["NOT (" ++ processLogicalOperators models modelName (.obj fs2) ++ ")"]
  | "NOT", .arr ws2 =>
    ["NOT (" ++ processLogicalOperators models modelName (.arr ws2) ++ ")"]
  | "NOT", .date d =>
    ["NOT (" ++ processLogicalOperators models modelName (.date d) ++ ")"]
  | f, cond => fieldOrRelation models modelName modelDef f cond
termination_by sizeOf condition + 1

/-- The map over `AND`/`OR` children on the Oracle side. -/
def ploChildren (models : Models) (modelName : String) (ws : List JSValue) : List String :=
  match ws with
  | [] => []
  | w :: rest => processLogicalOperators models modelName w :: ploChildren models modelName rest
termination_by sizeOf ws

end

/-- `buildWhereClauseStr` of oracle/query-read.ts delegates to
`processLogicalOperators`. -/
def buildWhereClauseStr (models : Models) (modelName : String) (w : JSValue) : String :=
  processLogicalOperators models modelName w

end Oracle

namespace PostgresLegacy

/-- `buildConditionStr` of src/server/db/postgres/query.ts: the variant
WITHOUT the NULL special case — `eq` against `null` renders as
`= NULL` via `formatValue`. -/
def buildConditionStr (tableName field operator : String) (value : JSValue) : String :=
  let columnRef := dq tableName ++ "." ++ dq field
  match operator with
  | "eq" => columnRef ++ " = " ++ Postgres.formatValue value
  | "neq" => columnRef ++ " != " ++ Postgres.formatValue value
  | "gt" => columnRef ++ " > " ++ Postgres.formatValue value
  | "gte" => columnRef ++ " >= " ++ Postgres.formatValue value
  | "lt" => columnRef ++ " < " ++ Postgres.formatValue value
  | "lte" => columnRef ++ " <= " ++ Postgres.formatValue value
  | "like" => columnRef ++ " LIKE " ++ Postgres.formatValue value
  | "ilike" => columnRef ++ " ILIKE " ++ Postgres.formatValue value
  | "in" =>
    match value with
    | .arr (x :: xs) => columnRef ++ " IN (" ++ Postgres.formatValueList (x :: xs) ++ ")"
    | _ => "1=0"
  | "nin" =>
    match value with
    | .arr (x :: xs) => columnRef ++ " NOT IN (" ++ Postgres.formatValueList (x :: xs) ++ ")"
    | _ => "1=1"
  | _ => "1=1"

/-- `if (conditionStr) conditions.push(conditionStr)` in the legacy file. -/
def pushIf (s : String) : List String := if s.isEmpty then [] else [s]

/-- Operator-map pass for a column field in the legacy WHERE builder
(src/server/db/postgres/query.ts has no string sugar). -/
def fieldOps (tableName field : String) : List (String × JSValue) → List String
  | [] => []
  | (op, value) :: rest =>
    pushIf (buildConditionStr tableName field op value) ++ fieldOps tableName field rest

/-- Operator-map pass for a related model field in the legacy builder. -/
def relOps (targetModelName relField : String) : List (String × JSValue) → List String
  | [] => []
  | (op, value) :: rest =>
    pushIf (buildConditionStr targetModelName relField op value) ++
      relOps targetModelName relField rest

/-- The per-field loop of the legacy relation branch. -/
def relConds (targetModelName : String) : List (String × JSValue) → List String
  | [] => []
  | (relField, relCondition) :: rest =>
    (match relCondition with
     | .null => []
     | .undefined => []
     | .obj ops => relOps targetModelName relField ops
     | v => pushIf (buildConditionStr targetModelName relField "eq" v)) ++
      relConds targetModelName rest

/-- The correlated `EXISTS` template of the legacy WHERE builder (the
target alias is NOT double-quoted there). -/
def existsSubquery (targetTable targetModelName toColumn tableName fromCol whereStr : String) :
    String :=
  "EXISTS (\n          SELECT 1 \n          FROM " ++ dq targetTable ++ " AS " ++
    targetModelName ++ "\n          WHERE " ++ dq targetModelName ++ "." ++ dq toColumn ++
    " = " ++ dq tableName ++ "." ++ dq fromCol ++ whereStr ++ "\n        )"

/-- One `[field, condition]` entry of the legacy WHERE builder: column
fields take the equality-shorthand / operator-map path, other keys resolve
as relations (same degenerate-input modeling notes as the query-read
version). There is no logical-operator handling in this file. -/
def whereEntry (models : Models) (modelName : String) (modelDef : ModelDefinition)
    (field : String) (cond : JSValue) : List String :=
  if (alook modelDef.columns field).isSome then
    match cond with
    | .null => []
    | .undefined => []
    | .obj ops => fieldOps modelName field ops
    | v => pushIf (buildConditionStr modelName field "eq" v)
  else
    match getRelation models modelName field with
    | none => []
    | some relationDef =>
      match alook models relationDef.toRef.model with
      | none => []
      | some targetModelDef =>
        let targetModelName := relationDef.toRef.model
        match cond with
        | .obj (e :: es) =>
          let relationWhereClauses := relConds targetModelName (e :: es)
          let relationWhereStr :=
            if relationWhereClauses.isEmpty then ""
            else " AND " ++ String.intercalate " AND " relationWhereClauses
          [existsSubquery targetModelDef.table targetModelName relationDef.toRef.column
            modelName relationDef.fromCol relationWhereStr]
        | _ =>
          [existsSubquery targetModelDef.table targetModelName relationDef.toRef.column
            modelName relationDef.fromCol ""]

/-- The entry loop of the legacy WHERE builder. -/
def whereEntries (models : Models) (modelName : String) (modelDef : ModelDefinition) :
    List (String × JSValue) → List String
  | [] => []
  | (field, condition) :: rest =>
    whereEntry models modelName modelDef field condition ++
      whereEntries models modelName modelDef rest

/-- `buildWhereClauseStr` of src/server/db/postgres/query.ts: an unknown
model or no collected conditions yield `1=1`; otherwise the conditions are
joined with `AND`. A non-object where tree is modeled as having no
entries. -/
def buildWhereClauseStr (models : Models) (modelName : String) (w : JSValue) : String :=
  match alook models modelName with
  | none => "1=1"
  | some modelDef =>
    let conditions :=
      match w with
      | .obj fs => whereEntries models modelName modelDef fs
      | _ => []
    if conditions.isEmpty then "1=1" else String.intercalate " AND " conditions

/-- The per-relation `json_agg` subquery template of the legacy SELECT
builder (the subquery alias is NOT double-quoted). -/
def relSubquery (fieldsStr targetTable targetModelName toColumn tableName fromCol field :
    String) : String :=
  "(\n              SELECT json_agg(json_build_object(\n                " ++ fieldsStr ++
    "\n              ))\n              FROM " ++ dq targetTable ++ " AS " ++ targetModelName ++
    "\n              WHERE " ++ dq targetModelName ++ "." ++ dq toColumn ++ " = " ++
    dq tableName ++ "." ++ dq fromCol ++ "\n            ) AS " ++ field

/-- `Object.entries(x).filter(([_, v]) => v === true).map(([f]) => f)`. -/
def trueKeys : List (String × JSValue) → List String
  | [] => []
  | (k, v) :: rest => (if v == .bool true then [k] else []) ++ trueKeys rest

/-- One entry of an explicit select object in the legacy SELECT builder:
`true` on a declared column emits the aliased column; an object payload is
a relation whose `true`-marked remote fields populate a `json_agg`
subquery (an unknown relation or target model, or an empty remote field
list, contributes nothing). -/
def selEntry (models : Models) (modelName : String) (modelDef : ModelDefinition)
    (field : String) (value : JSValue) : List String :=
  match value with
  | .bool true =>
    if (alook modelDef.columns field).isSome then
      [dq modelName ++ "." ++ dq field ++ " AS " ++ modelName ++ "_" ++ field]
    else []
  | .obj fs =>
    (match getRelation models modelName field with
     | none => []
     | some relationDef =>
       match alook models relationDef.toRef.model with
       | none => []
       | some targetModelDef =>
         let targetModelName := relationDef.toRef.model
         let relationFields := trueKeys fs
         if relationFields.isEmpty then []
         else
           let fieldsStr := String.intercalate ", " (relationFields.map fun rf =>
             squote ++ rf ++ squote ++ ", " ++ dq targetModelName ++ "." ++ dq rf)
           [relSubquery fieldsStr targetModelDef.table targetModelName
             relationDef.toRef.column modelName relationDef.fromCol field])
  | .arr _ =>
    (match getRelation models modelName field with
     | none => []
     | some relationDef =>
       match alook models relationDef.toRef.model with
       | none => []
       | some _ => [])
  | .date _ =>
    (match getRelation models modelName field with
     | none => []
     | some relationDef =>
       match alook models relationDef.toRef.model with
       | none => []
       | some _ => [])
  | _ => []

/-- The entry loop of the legacy SELECT builder over an explicit select
object. -/
def selEntries (models : Models) (modelName : String) (modelDef : ModelDefinition) :
    List (String × JSValue) → List String
  | [] => []
  | (field, value) :: rest =>
    selEntry models modelName modelDef field value ++ selEntries models modelName modelDef rest

/-- `buildSelectClause` of src/server/db/postgres/query.ts: with no select
object every declared column is emitted with an unquoted `table_column`
alias (falling back to `modelName.*` when there are none); with a select
object each entry is processed by `selEntry`, with the same fallback. -/
def buildSelectClause (models : Models) (modelName : String) (selectFields : Option JSValue) :
    String :=
  let columns : List String :=
    match selectFields with
    | none =>
      (match alook models modelName with
       | none => []
       | some modelDef =>
         modelDef.columns.map fun p =>
           dq modelName ++ "." ++ dq p.1 ++ " AS " ++ modelName ++ "_" ++ p.1)
    | some sel =>
      (match alook models modelName with
       | none => []
       | some modelDef =>
         match sel with
         | .obj fs => selEntries models modelName modelDef fs
         | _ => [])
  if columns.isEmpty then modelName ++ ".*" else String.intercalate ", " columns

/-- `buildOrderByClauseStr` of src/server/db/postgres/query.ts: entries
whose direction is `asc` or `desc` are emitted left-to-right as
`"model"."field" ASC|DESC`; everything else is skipped. -/
def buildOrderByClauseStr (modelName : String) (orderBy : List (String × String)) : String :=
  let orderClauses := (orderBy.filter fun p => p.2 = "asc" || p.2 = "desc").map fun p =>
    dq modelName ++ "." ++ dq p.1 ++ " " ++ jsToUpper p.2
  if orderClauses.isEmpty then "" else String.intercalate ", " orderClauses

/-- The options record of a `findMany` call; `whereArg` embeds the source
field `where` (a Lean keyword). `limit`/`skip` are JS numbers modeled as
integers. -/
structure FindManyOptions where
  select : Option JSValue := none
  whereArg : Option JSValue := none
  orderBy : Option (List (String × String)) := none
  limit : Option Int := none
  skip : Option Int := none

/-- The query string assembled by `createFindMany` in
src/server/db/postgres/query.ts: SELECT/FROM always, then WHERE, ORDER BY,
LIMIT and OFFSET appended only when the corresponding option is truthy
(for the numeric `limit`/`skip` this means present AND non-zero, since 0
is falsy in JavaScript). -/
def createFindManyQueryString (models : Models) (modelName : String)
    (modelDef : ModelDefinition) (o : FindManyOptions) : String :=
  let q0 := "\nSELECT " ++ buildSelectClause models modelName o.select ++
    "\nFROM " ++ dq modelDef.table ++ " AS " ++ dq modelName
  let q1 :=
    match o.whereArg with
    | some w => q0 ++ " WHERE " ++ buildWhereClauseStr models modelName w
    | none => q0
  let q2 :=
    match o.orderBy with
    | some ob => q1 ++ " ORDER BY " ++ buildOrderByClauseStr modelName ob
    | none => q1
  let q3 :=
    match o.limit with
    | some n => if n != 0 then q2 ++ " LIMIT " ++ toString n else q2
    | none => q2
  match o.skip with
  | some n => if n != 0 then q3 ++ "\n      OFFSET " ++ toString n else q3
  | none => q3

end PostgresLegacy

/-! ## Result mappers -/

namespace Postgres

/-- The no-select branch of `processResults` in the row-store query-read
module: keys with the `table_` alias are stripped of it, underscore-free
keys are copied through, everything else is dropped. -/
def noSelRow (pfx : String) : List (String × JSValue) → List (String × JSValue) →
    List (String × JSValue)
  | acc, [] => acc
  | acc, (key, v) :: rest =>
    if key.startsWith pfx then
      noSelRow pfx (objSet acc (key.drop pfx.length) v) rest
    else if !(key.contains (Char.ofNat 95)) then
      noSelRow pfx (objSet acc key v) rest
    else
      noSelRow pfx acc rest

/-- The explicit-select branch of `processResults` in the row-store
query-read module: `true` selects copy the aliased cell; an object payload
is a relation — for a declared `has_many` relation the cell is normalized
to an array (NULL → empty array, an array stays, anything else is wrapped),
for `has_one`/`belongs_to` the cell is kept if truthy and otherwise set to
`null`, and an undeclared relation falls back to the cell-or-empty-array. -/
def selRow (models : Models) (modelName : String) (row : List (String × JSValue)) :
    List (String × JSValue) → List (String × JSValue) → List (String × JSValue)
  | acc, [] => acc
  | acc, (field, value) :: rest =>
    let acc2 :=
      match value with
      | .bool true => objSet acc field (rowGet row (modelName ++ "_" ++ field))
      | .obj _ | .arr _ | .date _ =>
        (match alook models modelName with
         | some modelDef =>
           (match alook modelDef.relations field with
            | some relDef =>
              if relDef.rtype = .has_many then
                match rowGet row field with
                | .null => objSet acc field (.arr [])
                | .arr xs => objSet acc field (.arr xs)
                | v => objSet acc field (.arr [v])
              else
                let v := rowGet row field
                objSet acc field (if jsTruthy v then v else .null)
            | none =>
              let v := rowGet row field
              objSet acc field (if jsTruthy v then v else .arr []))
         | none =>
           let v := rowGet row field
           objSet acc field (if jsTruthy v then v else .arr []))
      | _ => acc
    selRow models modelName row acc2 rest

/-- One row through `processResults` of the row-store query-read module. -/
def processRow (models : Models) (modelName : String) (selectFields : Option JSValue)
    (row : List (String × JSValue)) : List (String × JSValue) :=
  match selectFields with
  | none => noSelRow (modelName ++ "_") [] row
  | some sel =>
    match sel with
    | .obj fs => selRow models modelName row [] fs
    | _ => []

/-- `processResults` of the row-store query-read module maps `processRow`
over the result rows. -/
def processResults (models : Models) (modelName : String) (selectFields : Option JSValue)
    (results : List (List (String × JSValue))) : List (List (String × JSValue)) :=
  results.map (processRow models modelName selectFields)

end Postgres

namespace Oracle

/-- Find a row key case-insensitively, as oracle/query-read.ts does with
`Object.keys(row).find(k => k.toUpperCase() === target.toUpperCase())`. -/
def findKeyCI (row : List (String × JSValue)) (target : String) : Option (String × JSValue) :=
  row.find? fun p => jsToUpper p.1 = jsToUpper target

/-- The JSON-parsing step applied to a string relation cell: `JSON.parse`
(modeled by the abstract parser `parse`, the builtin) with a parse failure
leaving the raw string in place. -/
def parseCell (parse : String → Option JSValue) : JSValue → JSValue
  | .str s =>
    match parse s with
    | some v => v
    | none => .str s
  | v => v

/-- The no-select branch of the Oracle `processResults`: keys are matched
against the uppercase alias, and string cells that look like JSON
(starting with a bracket or brace) are parsed with failures left as raw
strings; underscore-free keys are copied through lowercased. -/
def noSelRow (parse : String → Option JSValue) (pfx : String) :
    List (String × JSValue) → List (String × JSValue) → List (String × JSValue)
  | acc, [] => acc
  | acc, (key, v) :: rest =>
    if (jsToUpper key).startsWith (jsToUpper pfx) then
      let fieldName := key.drop pfx.length
      let v2 :=
        match v with
        | .str s =>
          if s.startsWith "[" || s.startsWith "\x7b" then
            match parse s with
            | some parsed => parsed
            | none => .str s
          else .str s
        | w => w
      noSelRow parse pfx (objSet acc fieldName v2) rest
    else if !((jsToUpper key).contains (Char.ofNat 95)) then
      noSelRow parse pfx (objSet acc (jsToLower key) v) rest
    else
      noSelRow parse pfx acc rest

/-- The explicit-select branch of the Oracle `processResults`: `true`
selects copy the case-insensitively matched aliased cell (nothing is set
when no key matches); an object payload is a relation — for a declared
relation the case-insensitively matched cell is JSON-parsed when it is a
string (failures keep the raw string), then a `has_many` cell is
normalized to an array and a `has_one`/`belongs_to` cell unwraps a
one-element array or falls back to the truthy value or `null`; a missing
relation key sets the cardinality-appropriate empty value, and an
undeclared relation falls back to the cell-or-empty-array. -/
def selRow (parse : String → Option JSValue) (models : Models) (modelName : String)
    (row : List (String × JSValue)) :
    List (String × JSValue) → List (String × JSValue) → List (String × JSValue)
  | acc, [] => acc
  | acc, (field, value) :: rest =>
    let acc2 :=
      match value with
      | .bool true =>
        (match findKeyCI row (modelName ++ "_" ++ field) with
         | some kv => objSet acc field kv.2
         | none => acc)
      | .obj _ | .arr _ | .date _ =>
        (match alook models modelName with
         | some modelDef =>
           (match alook modelDef.relations field with
            | some relDef =>
              (match findKeyCI row field with
               | none =>
                 objSet acc field (if relDef.rtype = .has_many then .arr [] else .null)
               | some kv =>
                 let relationData := parseCell parse kv.2
                 if relDef.rtype = .has_many then
                   match relationData with
                   | .null => objSet acc field (.arr [])
                   | .arr xs => objSet acc field (.arr xs)
                   | v => objSet acc field (.arr [v])
                 else
                   match relationData with
                   | .arr [x] => objSet acc field x
                   | v => objSet acc field (if jsTruthy v then v else .null))
            | none =>
              let v := rowGet row field
              objSet acc field (if jsTruthy v then v else .arr []))
         | none =>
           let v := rowGet row field
           objSet acc field (if jsTruthy v then v else .arr []))
      | _ => acc
    selRow parse models modelName row acc2 rest

/-- One row through the Oracle `processResults`. -/
def processRow (parse : String → Option JSValue) (models : Models) (modelName : String)
    (selectFields : Option JSValue) (row : List (String × JSValue)) :
    List (String × JSValue) :=
  match selectFields with
  | none => noSelRow parse (modelName ++ "_") [] row
  | some sel =>
    match sel with
    | .obj fs => selRow parse models modelName row [] fs
    | _ => []

/-- The Oracle `processResults` maps `processRow` over the result rows. -/
def processResults (parse : String → Option JSValue) (models : Models) (modelName : String)
    (selectFields : Option JSValue) (results : List (List (String × JSValue))) :
    List (List (String × JSValue)) :=
  results.map (processRow parse models modelName selectFields)

end Oracle

/-! ## Write engines as trace-producing runners -/

/-- An observable event on the database connection. -/
inductive DbEvent where
  | begin
  | exec (s : String)
  | commit
  | rollback
  | getConn
  | close
deriving Repr, BEq, DecidableEq

/-- Run a statement list sequentially against the abstract executor; stop
at the first failing statement and report its error. -/
def execStmts (db : String → Except String Unit) : List String → List DbEvent × Option String
  | [] => ([], none)
  | s :: rest =>
    match db s with
    | .ok _ =>
      let r := execStmts db rest
      (DbEvent.exec s :: r.1, r.2)
    | .error e => ([DbEvent.exec s], some e)

/-- The outcome of a write call: the connection trace and the error
surfaced to the caller (thrown, or carried in the debug envelope —
the source performs the same COMMIT/ROLLBACK either way). -/
structure WriteResult where
  trace : List DbEvent
  surfaced : Option String
deriving Repr, BEq

namespace Postgres

/-- The transaction shape of `createUpdate`/`createCreate` in
postgres/query-write.ts: BEGIN, then the parent statement and every
relation-cascade statement inside one `try`; on success COMMIT, on any
statement error ROLLBACK and surface the error. BEGIN/COMMIT/ROLLBACK are
modeled as control events; the cascade statement texts (which depend on
runtime row values) are passed as a list. -/
def runWrite (db : String → Except String Unit) (parent : String) (cascades : List String) :
    WriteResult :=
  let r := execStmts db (parent :: cascades)
  match r.2 with
  | none => ⟨DbEvent.begin :: r.1 ++ [DbEvent.commit], none⟩
  | some e => ⟨DbEvent.begin :: r.1 ++ [DbEvent.rollback], some e⟩

/-- The INSERT statement text built by `createCreate` of
postgres/query-write.ts: quoted declared-column names and formatted values
from the column entries of `data`, with `RETURNING *`. -/
def insertQueryOf (modelDef : ModelDefinition) (data : List (String × JSValue)) : String :=
  let columnData := data.filter fun p => (alook modelDef.columns p.1).isSome
  let columns := String.intercalate ", " (columnData.map fun p => dq p.1)
  let values := String.intercalate ", " (columnData.map fun p => formatValue p.2)
  "INSERT INTO " ++ dq modelDef.table ++ " (" ++ columns ++
    ") VALUES (" ++ values ++ ") RETURNING *"

/-- `createCreate` of postgres/query-write.ts (the variant that splits
`data` into column and relation entries): the INSERT text is built from
the declared-column entries via `formatValue`, and the whole sequence runs
under `runWrite`. No primary-key check exists in this file. -/
def createCreate (modelDef : ModelDefinition) (data : List (String × JSValue))
    (cascades : List String) (db : String → Except String Unit) : WriteResult :=
  runWrite db (insertQueryOf modelDef data) cascades

end Postgres

namespace Oracle

/-- `getPrimaryKeyColumns` of oracle/query-write.ts. -/
def getPrimaryKeyColumns (modelDef : ModelDefinition) : List String :=
  (modelDef.columns.filter fun p => p.2.is_primary_key).map fun p => p.1

/-- The connection/transaction shape of the Oracle `createCreate` body:
get a connection, execute the INSERT and the cascade statements with
`autoCommit: false`, COMMIT, then run the post-insert SELECT; any error
before the COMMIT triggers ROLLBACK and surfaces the error, and the
connection is closed in the `finally` either way. -/
def runCreate (db : String → Except String Unit) (sqlStmt : String) (cascades : List String)
    (postSelect : String) : WriteResult :=
  let r := execStmts db (sqlStmt :: cascades)
  match r.2 with
  | some e => ⟨DbEvent.getConn :: r.1 ++ [DbEvent.rollback, DbEvent.close], some e⟩
  | none =>
    match db postSelect with
    | .ok _ =>
      ⟨DbEvent.getConn :: r.1 ++ [DbEvent.commit, DbEvent.exec postSelect, DbEvent.close],
        none⟩
    | .error e =>
      ⟨DbEvent.getConn :: r.1 ++
        [DbEvent.commit, DbEvent.exec postSelect, DbEvent.rollback, DbEvent.close], some e⟩

/-- `createCreate` of oracle/query-write.ts: split `data` into declared
column fields (skipping relation fields), fail before anything executes
when the model declares no primary-key column, otherwise build the
sequence-select prefix, the INSERT and its `RETURNING ... INTO` clause,
and run the whole sequence under `runCreate`. The cascade statements
(whose text depends on runtime key values) and the post-insert SELECT are
passed in. -/
def createCreate (modelDef : ModelDefinition) (data : List (String × JSValue))
    (cascades : List String) (postSelect : String) (db : String → Except String Unit) :
    WriteResult :=
  let fields := (data.filter fun p =>
    (alook modelDef.relations p.1).isNone && (alook modelDef.columns p.1).isSome).map
    fun p => p.1
  let primaryKeyColumns := getPrimaryKeyColumns modelDef
  if primaryKeyColumns.isEmpty then
    ⟨[], some ("No primary key defined for table " ++ modelDef.table)⟩
  else
    let missingPks := primaryKeyColumns.filter fun pk => !fields.contains pk
    let sequenceSelects := String.intercalate ";\n" (missingPks.map fun pk =>
      "SELECT " ++ formatIdentifier modelDef.table ++ "_SEQ.NEXTVAL INTO :" ++ pk ++
        "_seq FROM DUAL")
    let fields2 := fields ++ missingPks
    let placeholders := fields2.enum.map fun p =>
      if missingPks.contains p.2 then ":" ++ p.2 ++ "_seq" else ":" ++ toString (p.1 + 1)
    let head := if sequenceSelects.isEmpty then "" else sequenceSelects ++ ";\n"
    let sqlStmt := head ++ "\nINSERT INTO " ++ formatIdentifier modelDef.table ++ " (" ++
      String.intercalate ", " (fields2.map formatIdentifier) ++ ")\nVALUES (" ++
      String.intercalate ", " placeholders ++ ")" ++ " RETURNING " ++
      String.intercalate ", " (primaryKeyColumns.map formatIdentifier) ++ " INTO " ++
      String.intercalate ", " (primaryKeyColumns.map fun c => ":" ++ c)
    runCreate db sqlStmt cascades postSelect

end Oracle

/-- Erase spaces, newlines and tabs, for string comparison "up to
whitespace". -/
def stripWs (s : String) : String :=
  String.mk (s.data.filter fun c => !(c = ' ' || c = '\n' || c = '\t'))

/-- `Array.isArray` on a JavaScript value. -/
def jsIsArr : JSValue → Bool
  | .arr _ => true
  | _ => false

/-! ## Concrete example registry and executors used by closed statements -/

/-- Example target model for a `has_many` relation. -/
def postModel : ModelDefinition :=
  ⟨"posts",
   [("id", ⟨"number", true⟩), ("user_id", ⟨"number", false⟩), ("title", ⟨"text", false⟩)],
   []⟩

/-- Example target model for a `has_one` relation. -/
def profileModel : ModelDefinition :=
  ⟨"profiles", [("id", ⟨"number", true⟩), ("user_id", ⟨"number", false⟩)], []⟩

/-- Example source model with columns and one relation per cardinality. -/
def userModel : ModelDefinition :=
  ⟨"users",
   [("id", ⟨"number", true⟩), ("age", ⟨"number", false⟩), ("status", ⟨"text", false⟩),
    ("name", ⟨"text", false⟩)],
   [("posts", ⟨.has_many, "id", ⟨"post", "user_id"⟩⟩),
    ("profile", ⟨.has_one, "id", ⟨"profile", "user_id"⟩⟩)]⟩

/-- Example model declaring no primary-key column. -/
def logModel : ModelDefinition := ⟨"logs", [("msg", ⟨"text", false⟩)], []⟩

/-- Example registry. -/
def Mex : Models :=
  [("user", userModel), ("post", postModel), ("profile", profileModel), ("log", logModel)]

/-- A statement executor on which every statement succeeds. -/
def okDb : String → Except String Unit := fun _ => Except.ok ()

/-- A statement executor on which every statement fails. -/
def failDb : String → Except String Unit := fun _ => Except.error "boom"

/-- A JSON parser that fails on every input (any real parser fails on the
malformed cells fed to it in the closed statements below). -/
def noParse : String → Option JSValue := fun _ => none

/-- A JSON parser that accepts exactly the literal string `null` (the
behavior of `JSON.parse` on that input). -/
def nullParse : String → Option JSValue := fun s => if s = "null" then some .null else none

/-- Example where-tree child A for logical-operator statements. -/
def exA : JSValue := .obj [("age", .obj [("eq", .num 1)])]

/-- Example where-tree child B for logical-operator statements. -/
def exB : JSValue := .obj [("age", .obj [("eq", .num 2)])]

/-! ## Helper lemmas -/

theorem intercalate_single (s x : String) : String.intercalate s [x] = x := by
  simp [String.intercalate, String.intercalate.go]

theorem intercalate_pair (s x y : String) : String.intercalate s [x, y] = x ++ s ++ y := by
  simp [String.intercalate, String.intercalate.go]

theorem alook_objSet_self (o : List (String × JSValue)) (k : String) (v : JSValue) :
    alook (objSet o k v) k = some v := by
  induction o with
  | nil => simp [objSet, alook, List.lookup]
  | cons p rest ih =>
    obtain ⟨k2, w⟩ := p
    by_cases h : k2 = k
    · subst h; simp [objSet, alook, List.lookup]
    · have hbeq : (k == k2) = false := beq_eq_false_iff_ne.mpr fun hh => h hh.symm
      simpa [objSet, if_neg h, alook, List.lookup, hbeq] using ih

theorem alook_objSet_ne (o : List (String × JSValue)) (k : String) (v : JSValue)
    (k2 : String) (h : k2 ≠ k) : alook (objSet o k v) k2 = alook o k2 := by
  induction o with
  | nil =>
    have hbeq : (k2 == k) = false := beq_eq_false_iff_ne.mpr h
    simp [objSet, alook, List.lookup, hbeq]
  | cons p rest ih =>
    obtain ⟨k3, w⟩ := p
    by_cases h3 : k3 = k
    · subst h3
      have hbeq : (k2 == k3) = false := beq_eq_false_iff_ne.mpr h
      simp [objSet, alook, List.lookup, hbeq]
    · by_cases h4 : k2 = k3
      · subst h4
        simp [objSet, if_neg h3, alook, List.lookup]
      · have hbeq : (k2 == k3) = false := beq_eq_false_iff_ne.mpr h4
        simpa [objSet, if_neg h3, alook, List.lookup, hbeq] using ih

theorem execStmts_cons_head (db : String → Except String Unit) (s : String)
    (l : List String) :
    ∃ t, (execStmts db (s :: l)).1 = DbEvent.exec s :: t := by
  rw [execStmts]
  cases db s with
  | ok u => exact ⟨(execStmts db l).1, rfl⟩
  | error e => exact ⟨[], rfl⟩

theorem execStmts_mem_exec (db : String → Except String Unit) (l : List String)
    (ev : DbEvent) (h : ev ∈ (execStmts db l).1) : ∃ s, ev = DbEvent.exec s := by
  induction l with
  | nil => simp [execStmts] at h
  | cons s rest ih =>
    rw [execStmts] at h
    cases hdb : db s with
    | ok u =>
      rw [hdb] at h
      simp only [List.mem_cons] at h
      rcases h with h | h
      · exact ⟨s, h⟩
      · exact ih h
    | error e =>
      rw [hdb] at h
      simp only [List.mem_singleton] at h
      exact ⟨s, h⟩

theorem selRow_skip (models : Models) (mn : String) (row : List (String × JSValue))
    (fs : List (String × JSValue)) (acc : List (String × JSValue)) (k : String)
    (h : k ∉ fs.map Prod.fst) :
    alook (Postgres.selRow models mn row acc fs) k = alook acc k := by
  induction fs generalizing acc with
  | nil => rfl
  | cons p rest ih =>
    obtain ⟨field, value⟩ := p
    simp only [List.map_cons, List.mem_cons, not_or] at h
    obtain ⟨hk, hrest⟩ := h
    simp only [Postgres.selRow]
    rw [ih _ hrest]
    repeat' split
    all_goals (first | rfl | exact alook_objSet_ne _ _ _ _ hk)

theorem selRow_has_many (models : Models) (mn : String) (row : List (String × JSValue))
    (fs : List (String × JSValue)) (acc : List (String × JSValue))
    (modelDef : ModelDefinition) (relDef : RelationDef) (field : String)
    (s : List (String × JSValue))
    (h1 : alook models mn = some modelDef)
    (h2 : alook modelDef.relations field = some relDef)
    (h3 : relDef.rtype = .has_many)
    (h4 : (field, JSValue.obj s) ∈ fs)
    (h5 : (fs.map Prod.fst).Nodup) :
    alook (Postgres.selRow models mn row acc fs) field =
      some (match rowGet row field with
            | .null => .arr []
            | .arr xs => .arr xs
            | v => .arr [v]) := by
  induction fs generalizing acc with
  | nil => simp at h4
  | cons p rest ih =>
    obtain ⟨f2, v2⟩ := p
    simp only [List.map_cons, List.nodup_cons] at h5
    obtain ⟨hnotin, hnodup⟩ := h5
    rcases List.mem_cons.mp h4 with heq | hmem
    · cases heq
      simp only [Postgres.selRow]
      rw [selRow_skip models mn row rest _ field hnotin]
      simp only [h1, h2, h3, if_pos]
      cases hr : rowGet row field <;> exact alook_objSet_self _ _ _
    · simp only [Postgres.selRow]
      exact ih _ hmem hnodup

theorem oraSelRow_skip (parse : String → Option JSValue) (models : Models) (mn : String)
    (row : List (String × JSValue)) (fs : List (String × JSValue))
    (acc : List (String × JSValue)) (k : String)
    (h : k ∉ fs.map Prod.fst) :
    alook (Oracle.selRow parse models mn row acc fs) k = alook acc k := by
  induction fs generalizing acc with
  | nil => rfl
  | cons p rest ih =>
    obtain ⟨field, value⟩ := p
    simp only [List.map_cons, List.mem_cons, not_or] at h
    obtain ⟨hk, hrest⟩ := h
    simp only [Oracle.selRow]
    rw [ih _ hrest]
    repeat' split
    all_goals (first | rfl | exact alook_objSet_ne _ _ _ _ hk)

theorem oraSelRow_has_many_arr (parse : String → Option JSValue) (models : Models)
    (mn : String) (row : List (String × JSValue)) (fs : List (String × JSValue))
    (acc : List (String × JSValue)) (modelDef : ModelDefinition) (relDef : RelationDef)
    (field : String) (s : List (String × JSValue))
    (h1 : alook models mn = some modelDef)
    (h2 : alook modelDef.relations field = some relDef)
    (h3 : relDef.rtype = .has_many)
    (h4 : (field, JSValue.obj s) ∈ fs)
    (h5 : (fs.map Prod.fst).Nodup) :
    ∃ xs, alook (Oracle.selRow parse models mn row acc fs) field = some (.arr xs) := by
  induction fs generalizing acc with
  | nil => simp at h4
  | cons p rest ih =>
    obtain ⟨f2, v2⟩ := p
    simp only [List.map_cons, List.nodup_cons] at h5
    obtain ⟨hnotin, hnodup⟩ := h5
    rcases List.mem_cons.mp h4 with heq | hmem
    · cases heq
      simp only [Oracle.selRow]
      rw [oraSelRow_skip parse models mn row rest _ field hnotin]
      simp only [h1, h2, h3, if_pos]
      cases hfk : Oracle.findKeyCI row field with
      | none => exact ⟨[], alook_objSet_self _ _ _⟩
      | some kv =>
        cases hpd : Oracle.parseCell parse kv.2 <;> simp only [hpd] <;>
          exact ⟨_, alook_objSet_self _ _ _⟩
    · simp only [Oracle.selRow]
      exact ih _ hmem hnodup

theorem ploEntry_plain (models : Models) (mn : String) (md : ModelDefinition)
    (field : String) (cond : JSValue)
    (hA : field ≠ "AND") (hO : field ≠ "OR") (hN : field ≠ "NOT") :
    Postgres.ploEntry models mn md field cond =
      Postgres.fieldOrRelation models mn md field cond := by
  rw [Postgres.ploEntry.eq_def]
  split
  · exact absurd rfl hA
  · exact absurd rfl hO
  · exact absurd rfl hN
  · exact absurd rfl hN
  · exact absurd rfl hN
  · rfl

/-! ## Claims -/

/-- C7 counterexample: with two concrete single-condition children, the
compiled `AND` filter is `(cA AND cB)` — one outer parenthesis pair around
the joined children — which differs from the claimed
`(cA) AND (cB)` even after erasing all whitespace. -/
theorem claim_c7_counterexample :
    stripWs (Postgres.processLogicalOperators Mex "user" (.obj [("AND", .arr [exA, exB])])) ≠
      stripWs ("(" ++ Postgres.processLogicalOperators Mex "user" exA ++ ") AND (" ++
        Postgres.processLogicalOperators Mex "user" exB ++ ")") := by
  have pe1 := ploEntry_plain Mex "user" userModel "age" (.obj [("eq", .num 1)])
    (by decide) (by decide) (by decide)
  have pe2 := ploEntry_plain Mex "user" userModel "age" (.obj [("eq", .num 2)])
    (by decide) (by decide) (by decide)
  have h0 : alook Mex "user" = some userModel := rfl
  have hA2 : Postgres.processLogicalOperators Mex "user" exA =
      dq "user" ++ "." ++ dq "age" ++ " = 1" := by
    simp only [exA, Postgres.processLogicalOperators, h0, Postgres.ploEntries, pe1]
    decide
  have hB2 : Postgres.processLogicalOperators Mex "user" exB =
      dq "user" ++ "." ++ dq "age" ++ " = 2" := by
    simp only [exB, Postgres.processLogicalOperators, h0, Postgres.ploEntries, pe2]
    decide
  simp only [Postgres.processLogicalOperators, h0, Postgres.ploEntries,
    Postgres.ploEntry, Postgres.ploChildren, hA2, hB2]
  decide

/-- C7 (amended): on both dialect compilers, for every registry holding
the model and all filter trees A and B, compiling `\x7b AND: [A, B] \x7d`
yields exactly `(` ++ compile(A) ++ ` AND ` ++ compile(B) ++ `)` — the
children joined by AND inside a single outer parenthesis pair (not each
child parenthesized separately). -/
theorem claim_c7_and_composition (models : Models) (modelName : String) (A B : JSValue)
    (h : (alook models modelName).isSome) :
    Postgres.processLogicalOperators models modelName (.obj [("AND", .arr [A, B])]) =
      "(" ++ Postgres.processLogicalOperators models modelName A ++ " AND " ++
        Postgres.processLogicalOperators models modelName B ++ ")" ∧
    Oracle.processLogicalOperators models modelName (.obj [("AND", .arr [A, B])]) =
      "(" ++ Oracle.processLogicalOperators models modelName A ++ " AND " ++
        Oracle.processLogicalOperators models modelName B ++ ")" := by
  obtain ⟨d, hd⟩ := Option.isSome_iff_exists.mp h
  constructor
  · simp [Postgres.processLogicalOperators, Postgres.ploEntries, Postgres.ploEntry,
      Postgres.ploChildren, hd, intercalate_pair, intercalate_single, String.append_assoc]
  · simp [Oracle.processLogicalOperators, Oracle.ploEntries, Oracle.ploEntry,
      Oracle.ploChildren, hd, intercalate_pair, intercalate_single, String.append_assoc]

/-- C7 witness: the example registry and children satisfy the hypothesis
and the composition shape. -/
theorem claim_c7_and_composition_witness :
    (alook Mex "user").isSome ∧
    (Postgres.processLogicalOperators Mex "user" (.obj [("AND", .arr [exA, exB])]) =
      "(" ++ Postgres.processLogicalOperators Mex "user" exA ++ " AND " ++
        Postgres.processLogicalOperators Mex "user" exB ++ ")" ∧
    Oracle.processLogicalOperators Mex "user" (.obj [("AND", .arr [exA, exB])]) =
      "(" ++ Oracle.processLogicalOperators Mex "user" exA ++ " AND " ++
        Oracle.processLogicalOperators Mex "user" exB ++ ")") :=
  ⟨rfl, claim_c7_and_composition Mex "user" exA exB rfl⟩

/-- C2 counterexample: on both dialects, `formatValue` applied to a value
of an unsupported kind (`undefined`, or a function/symbol-kind value
rendered by `String(value)`) does NOT raise a compiler error — it silently
produces a quoted SQL string via stringification. -/
theorem claim_c2_counterexample :
    Postgres.formatValue .undefined = squote ++ "undefined" ++ squote ∧
    Oracle.formatValue .undefined = squote ++ "undefined" ++ squote ∧
    Postgres.formatValue (.other "Symbol(tag)") = squote ++ "Symbol(tag)" ++ squote ∧
    Oracle.formatValue (.other "Symbol(tag)") = squote ++ "Symbol(tag)" ++ squote :=
  ⟨rfl, rfl, rfl, rfl⟩

/-- C2 (amended): `formatValue` never raises on an unsupported value kind;
on both dialects it falls through to the quote-escaped `String(value)`
rendering, and that literal flows into compiled conditions. -/
theorem claim_c2_silent_stringification (r t f : String) :
    Postgres.formatValue (.other r) = squote ++ escSq r ++ squote ∧
    Oracle.formatValue (.other r) = squote ++ escSq r ++ squote ∧
    Postgres.formatValue .undefined = squote ++ escSq "undefined" ++ squote ∧
    Oracle.formatValue .undefined = squote ++ escSq "undefined" ++ squote ∧
    Postgres.buildConditionStr t f "eq" (.other r) =
      dq t ++ "." ++ dq f ++ " = " ++ (squote ++ escSq r ++ squote) ∧
    Oracle.buildConditionStr t f "eq" (.other r) =
      dq t ++ "." ++ dq f ++ " = " ++ (squote ++ escSq r ++ squote) :=
  ⟨rfl, rfl, rfl, rfl, rfl, rfl⟩

/-- C4: for every registry and model name, compiling the empty filter tree
yields the tautology `1=1` (never the empty string) on the row-store
compiler, the Oracle compiler and the legacy row-store WHERE builder. -/
theorem claim_c4_empty_filter_tautology (models : Models) (modelName : String) :
    Postgres.processLogicalOperators models modelName (.obj []) = "1=1" ∧
    Oracle.processLogicalOperators models modelName (.obj []) = "1=1" ∧
    PostgresLegacy.buildWhereClauseStr models modelName (.obj []) = "1=1" := by
  refine ⟨?_, ?_, ?_⟩
  · cases h : alook models modelName <;>
      simp [Postgres.processLogicalOperators, Postgres.ploEntries, h]
  · cases h : alook models modelName <;>
      simp [Oracle.processLogicalOperators, Oracle.ploEntries, h]
  · cases h : alook models modelName <;>
      simp [PostgresLegacy.buildWhereClauseStr, PostgresLegacy.whereEntries, h]

/-- C5: on both dialects, `in` against the empty array compiles to the
contradiction `1=0` and `nin` against the empty array compiles to the
tautology `1=1`; no empty-parenthesis IN clause is produced. -/
theorem claim_c5_empty_in_nin (tableName field : String) :
    Postgres.buildConditionStr tableName field "in" (.arr []) = "1=0" ∧
    Postgres.buildConditionStr tableName field "nin" (.arr []) = "1=1" ∧
    Oracle.buildConditionStr tableName field "in" (.arr []) = "1=0" ∧
    Oracle.buildConditionStr tableName field "nin" (.arr []) = "1=1" :=
  ⟨rfl, rfl, rfl, rfl⟩

/-- C6 counterexample: the legacy row-store condition builder
(src/server/db/postgres/query.ts), one of the claim's cited compilers, has
no NULL special case: compiling `\x7b name: \x7b eq: null \x7d \x7d`
produces the fragment `= NULL`, not `IS NULL`. -/
theorem claim_c6_counterexample :
    PostgresLegacy.buildWhereClauseStr Mex "user" (.obj [("name", .obj [("eq", .null)])]) =
      dq "user" ++ "." ++ dq "name" ++ " = NULL" ∧
    PostgresLegacy.buildWhereClauseStr Mex "user" (.obj [("name", .obj [("eq", .null)])]) ≠
      dq "user" ++ "." ++ dq "name" ++ " IS NULL" := by
  exact ⟨rfl, by decide⟩

/-- C6 (amended): in the two `processLogicalOperators`-based compilers
(row-store query-read and Oracle query-read), `eq`/`neq` against `null`
compile to `IS NULL` / `IS NOT NULL` for every column reference; the
legacy row-store builder instead emits `= NULL` (see the
counterexample). -/
theorem claim_c6_null_is_null (t f : String) :
    Postgres.buildConditionStr t f "eq" .null = dq t ++ "." ++ dq f ++ " IS NULL" ∧
    Postgres.buildConditionStr t f "neq" .null = dq t ++ "." ++ dq f ++ " IS NOT NULL" ∧
    Oracle.buildConditionStr t f "eq" .null = dq t ++ "." ++ dq f ++ " IS NULL" ∧
    Oracle.buildConditionStr t f "neq" .null = dq t ++ "." ++ dq f ++ " IS NOT NULL" :=
  ⟨rfl, rfl, rfl, rfl⟩

/-- C1: on both write engines, if any statement of the write sequence (the
parent INSERT/UPDATE or any relation-cascade statement) fails, the
surfaced error is exactly that failure, a ROLLBACK is issued, and no
COMMIT ever appears in the connection trace — no partial write is
committed. -/
theorem claim_c1_rollback_on_error (db : String → Except String Unit)
    (parent : String) (cascades : List String) (postSelect : String) (e : String)
    (h : (execStmts db (parent :: cascades)).2 = some e) :
    ((Postgres.runWrite db parent cascades).surfaced = some e ∧
      DbEvent.rollback ∈ (Postgres.runWrite db parent cascades).trace ∧
      DbEvent.commit ∉ (Postgres.runWrite db parent cascades).trace) ∧
    ((Oracle.runCreate db parent cascades postSelect).surfaced = some e ∧
      DbEvent.rollback ∈ (Oracle.runCreate db parent cascades postSelect).trace ∧
      DbEvent.commit ∉ (Oracle.runCreate db parent cascades postSelect).trace) := by
  have hnc : DbEvent.commit ∉ (execStmts db (parent :: cascades)).1 := by
    intro hmem
    obtain ⟨s, hs⟩ := execStmts_mem_exec db _ _ hmem
    exact DbEvent.noConfusion hs
  constructor
  · simp only [Postgres.runWrite, h]
    simp [hnc]
  · simp only [Oracle.runCreate, h]
    simp [hnc]

/-- C1 witness: a concrete executor that fails the parent statement — the
hypothesis holds and both engines roll back without committing. -/
theorem claim_c1_rollback_on_error_witness :
    (execStmts failDb ("INSERT INTO T" :: ["CASCADE 1"])).2 = some "boom" ∧
    (((Postgres.runWrite failDb "INSERT INTO T" ["CASCADE 1"]).surfaced = some "boom" ∧
      DbEvent.rollback ∈ (Postgres.runWrite failDb "INSERT INTO T" ["CASCADE 1"]).trace ∧
      DbEvent.commit ∉ (Postgres.runWrite failDb "INSERT INTO T" ["CASCADE 1"]).trace) ∧
    ((Oracle.runCreate failDb "INSERT INTO T" ["CASCADE 1"] "SELECT 1").surfaced =
        some "boom" ∧
      DbEvent.rollback ∈
        (Oracle.runCreate failDb "INSERT INTO T" ["CASCADE 1"] "SELECT 1").trace ∧
      DbEvent.commit ∉
        (Oracle.runCreate failDb "INSERT INTO T" ["CASCADE 1"] "SELECT 1").trace)) :=
  ⟨rfl, claim_c1_rollback_on_error failDb "INSERT INTO T" ["CASCADE 1"] "SELECT 1" "boom" rfl⟩

/-- C3 counterexample: the row-store `createCreate` performs no
primary-key check — on a model with zero primary-key columns it executes
the INSERT and commits with no error surfaced, so the claim's "fails
before any SQL statement is executed, on both backends" is false on the
row-store backend. -/
theorem claim_c3_counterexample :
    (Postgres.createCreate logModel [("msg", .str "hi")] [] okDb).surfaced = none ∧
    (Postgres.createCreate logModel [("msg", .str "hi")] [] okDb).trace =
      [DbEvent.begin,
       DbEvent.exec (Postgres.insertQueryOf logModel [("msg", .str "hi")]),
       DbEvent.commit] :=
  ⟨rfl, rfl⟩

/-- C3 (amended): only the enterprise backend fails fast on a model with
zero primary-key columns — before any connection or statement, with the
`No primary key defined` error; the row-store backend performs no such
check and always proceeds to execute its INSERT as the first statement
after BEGIN. -/
theorem claim_c3_zero_pk_fail_fast (modelDef : ModelDefinition)
    (data : List (String × JSValue)) (cascades : List String) (postSelect : String)
    (db db2 : String → Except String Unit)
    (h : Oracle.getPrimaryKeyColumns modelDef = []) :
    Oracle.createCreate modelDef data cascades postSelect db =
      ⟨[], some ("No primary key defined for table " ++ modelDef.table)⟩ ∧
    ∃ t, (Postgres.createCreate modelDef data cascades db2).trace =
      DbEvent.begin :: DbEvent.exec (Postgres.insertQueryOf modelDef data) :: t := by
  constructor
  · unfold Oracle.createCreate
    rw [h]
    rfl
  · unfold Postgres.createCreate Postgres.runWrite
    obtain ⟨t, ht⟩ := execStmts_cons_head db2 (Postgres.insertQueryOf modelDef data) cascades
    cases hsnd : (execStmts db2 (Postgres.insertQueryOf modelDef data :: cascades)).2 with
    | none => exact ⟨t ++ [DbEvent.commit], by simp [hsnd, ht]⟩
    | some e => exact ⟨t ++ [DbEvent.rollback], by simp [hsnd, ht]⟩

/-- C3 witness: the example zero-primary-key model satisfies the
hypothesis; the enterprise create fails fast and the row-store create
still executes its INSERT. -/
theorem claim_c3_zero_pk_fail_fast_witness :
    Oracle.getPrimaryKeyColumns logModel = [] ∧
    (Oracle.createCreate logModel [("msg", .str "hi")] [] "SELECT 1" failDb =
      ⟨[], some ("No primary key defined for table " ++ logModel.table)⟩ ∧
    ∃ t, (Postgres.createCreate logModel [("msg", .str "hi")] [] okDb).trace =
      DbEvent.begin ::
        DbEvent.exec (Postgres.insertQueryOf logModel [("msg", .str "hi")]) :: t) :=
  ⟨rfl, claim_c3_zero_pk_fail_fast logModel [("msg", .str "hi")] [] "SELECT 1"
    failDb okDb rfl⟩

/-- C8 counterexample: a `has_many` relation selected with `true` (a legal
selection, for which the SELECT builder emits the aggregate subquery
aliased by the relation name) is treated as a plain column by the
row-store result mapper: the mapped field is the raw `table_field` aliased
cell, which the query never produces — `undefined`, not an array — even
though the backend returned a proper array in the relation cell. -/
theorem claim_c8_counterexample :
    Postgres.processResults Mex "user" (some (.obj [("posts", .bool true)]))
      [[("posts", .arr [.obj [("id", .num 1)]])]] = [[("posts", .undefined)]] ∧
    jsIsArr (rowGet (Postgres.processRow Mex "user" (some (.obj [("posts", .bool true)]))
      [("posts", .arr [.obj [("id", .num 1)]])]) "posts") = false :=
  ⟨rfl, rfl⟩

/-- C8 (amended): for every `has_many` relation selected with a nested
selection object (in a select tree with JavaScript-object keys, i.e.
no duplicates), the mapped field is always an array on both result
mappers: on the row-store mapper exactly the empty array for a NULL cell,
the array itself for an array cell, and a one-element wrapping of any
other cell; relations selected with `true` fall into the plain-column path
instead (see the counterexample). -/
theorem claim_c8_has_many_always_array (parse : String → Option JSValue) (models : Models)
    (modelName : String) (modelDef : ModelDefinition) (relDef : RelationDef)
    (field : String) (s : List (String × JSValue)) (row fs : List (String × JSValue))
    (h1 : alook models modelName = some modelDef)
    (h2 : alook modelDef.relations field = some relDef)
    (h3 : relDef.rtype = .has_many)
    (h4 : (field, JSValue.obj s) ∈ fs)
    (h5 : (fs.map Prod.fst).Nodup) :
    rowGet (Postgres.processRow models modelName (some (.obj fs)) row) field =
      (match rowGet row field with
       | .null => .arr []
       | .arr xs => .arr xs
       | v => .arr [v]) ∧
    ∃ xs, rowGet (Oracle.processRow parse models modelName (some (.obj fs)) row) field =
      JSValue.arr xs := by
  constructor
  · simp [Postgres.processRow, rowGet,
      selRow_has_many models modelName row fs [] modelDef relDef field s h1 h2 h3 h4 h5]
  · obtain ⟨xs, hxs⟩ :=
      oraSelRow_has_many_arr parse models modelName row fs [] modelDef relDef field s
        h1 h2 h3 h4 h5
    exact ⟨xs, by simp [Oracle.processRow, rowGet, hxs]⟩

/-- C8 witness: the example registry, a bare-object relation cell, and a
one-entry nested selection — the hypotheses hold and the mapped field is
the one-element array wrapping of the bare object. -/
theorem claim_c8_has_many_always_array_witness :
    alook Mex "user" = some userModel ∧
    alook userModel.relations "posts" = some ⟨.has_many, "id", ⟨"post", "user_id"⟩⟩ ∧
    (⟨.has_many, "id", ⟨"post", "user_id"⟩⟩ : RelationDef).rtype = .has_many ∧
    ("posts", JSValue.obj [("id", .bool true)]) ∈
      [("posts", JSValue.obj [("id", .bool true)])] ∧
    (([("posts", JSValue.obj [("id", .bool true)])].map Prod.fst).Nodup) ∧
    (rowGet (Postgres.processRow Mex "user"
        (some (.obj [("posts", .obj [("id", .bool true)])]))
        [("posts", .obj [("id", .num 1)])]) "posts" =
      (match rowGet [("posts", JSValue.obj [("id", .num 1)])] "posts" with
       | .null => .arr []
       | .arr xs => .arr xs
       | v => .arr [v]) ∧
    ∃ xs, rowGet (Oracle.processRow noParse Mex "user"
        (some (.obj [("posts", .obj [("id", .bool true)])]))
        [("posts", .obj [("id", .num 1)])]) "posts" = JSValue.arr xs) :=
  ⟨rfl, rfl, rfl, by simp, by simp,
    claim_c8_has_many_always_array noParse Mex "user" userModel
      ⟨.has_many, "id", ⟨"post", "user_id"⟩⟩ "posts" [("id", .bool true)]
      [("posts", .obj [("id", .num 1)])] [("posts", .obj [("id", .bool true)])]
      rfl rfl rfl (by simp) (by simp)⟩

/-- C9 counterexample: in the Oracle result mapper, a relation cell whose
string is unparsable JSON is NOT replaced by the cardinality-appropriate
empty value: the raw string is wrapped in a one-element array for a
`has_many` relation (not `[]`) and returned as the raw string for a
`has_one` relation (not `null`). -/
theorem claim_c9_counterexample :
    Oracle.processResults noParse Mex "user"
        (some (.obj [("posts", .obj [("id", .bool true)])]))
        [[("posts", .str "oops(")]] = [[("posts", .arr [.str "oops("])]] ∧
    Oracle.processResults noParse Mex "user"
        (some (.obj [("profile", .obj [("id", .bool true)])]))
        [[("profile", .str "oops(")]] = [[("profile", .str "oops(")]] ∧
    [[("posts", JSValue.arr [.str "oops("])]] ≠ [[("posts", JSValue.arr [])]] ∧
    [[("profile", JSValue.str "oops(")]] ≠ [[("profile", JSValue.null)]] :=
  ⟨rfl, rfl, by simp, by simp⟩

/-- C9 (amended): the Oracle mapper never propagates a parse failure (the
`JSON.parse` call is wrapped in try/catch, modeled by the total `parse`
oracle). A relation cell holding the literal string `null` parses to JSON
null and maps to the cardinality-appropriate empty value (`[]` for
`has_many`, `null` otherwise); an UNPARSABLE string is instead left as the
raw string — wrapped in a one-element array for `has_many`, and returned
as-is (when non-empty) for `has_one`/`belongs_to`. -/
theorem claim_c9_malformed_json (parse : String → Option JSValue) (models : Models)
    (modelName : String) (modelDef : ModelDefinition) (relDef : RelationDef)
    (field : String) (sub : List (String × JSValue)) (s : String)
    (row : List (String × JSValue)) (key : String)
    (h1 : alook models modelName = some modelDef)
    (h2 : alook modelDef.relations field = some relDef)
    (hk : Oracle.findKeyCI row field = some (key, .str s)) :
    (parse s = none → relDef.rtype = .has_many →
      Oracle.processRow parse models modelName (some (.obj [(field, .obj sub)])) row =
        [(field, .arr [.str s])]) ∧
    (parse s = none → relDef.rtype ≠ .has_many → s ≠ "" →
      Oracle.processRow parse models modelName (some (.obj [(field, .obj sub)])) row =
        [(field, .str s)]) ∧
    (parse s = some .null → relDef.rtype = .has_many →
      Oracle.processRow parse models modelName (some (.obj [(field, .obj sub)])) row =
        [(field, .arr [])]) ∧
    (parse s = some .null → relDef.rtype ≠ .has_many →
      Oracle.processRow parse models modelName (some (.obj [(field, .obj sub)])) row =
        [(field, .null)]) := by
  refine ⟨fun hp h3 => ?_, fun hp h3 hs => ?_, fun hp h3 => ?_, fun hp h3 => ?_⟩
  · simp [Oracle.processRow, Oracle.selRow, h1, h2, hk, Oracle.parseCell, hp, h3, objSet]
  · simp [Oracle.processRow, Oracle.selRow, h1, h2, hk, Oracle.parseCell, hp, h3,
      jsTruthy, objSet, String.isEmpty_iff, hs]
  · simp [Oracle.processRow, Oracle.selRow, h1, h2, hk, Oracle.parseCell, hp, h3, objSet]
  · simp [Oracle.processRow, Oracle.selRow, h1, h2, hk, Oracle.parseCell, hp, h3,
      jsTruthy, objSet]

/-- C9 witness: the example registry with a `has_many` relation, a
failing parser and the unparsable cell `oops(` — the hypotheses hold and
the live branches of the amended claim apply. -/
theorem claim_c9_malformed_json_witness :
    alook Mex "user" = some userModel ∧
    alook userModel.relations "posts" = some ⟨.has_many, "id", ⟨"post", "user_id"⟩⟩ ∧
    Oracle.findKeyCI [("posts", JSValue.str "oops(")] "posts" =
      some ("posts", .str "oops(") ∧
    ((noParse "oops(" = none →
        (⟨.has_many, "id", ⟨"post", "user_id"⟩⟩ : RelationDef).rtype = .has_many →
      Oracle.processRow noParse Mex "user"
          (some (.obj [("posts", .obj [("id", .bool true)])]))
          [("posts", .str "oops(")] = [("posts", .arr [.str "oops("])]) ∧
    (noParse "oops(" = none →
        (⟨.has_many, "id", ⟨"post", "user_id"⟩⟩ : RelationDef).rtype ≠ .has_many →
        "oops(" ≠ "" →
      Oracle.processRow noParse Mex "user"
          (some (.obj [("posts", .obj [("id", .bool true)])]))
          [("posts", .str "oops(")] = [("posts", .str "oops(")]) ∧
    (noParse "oops(" = some .null →
        (⟨.has_many, "id", ⟨"post", "user_id"⟩⟩ : RelationDef).rtype = .has_many →
      Oracle.processRow noParse Mex "user"
          (some (.obj [("posts", .obj [("id", .bool true)])]))
          [("posts", .str "oops(")] = [("posts", .arr [])]) ∧
    (noParse "oops(" = some .null →
        (⟨.has_many, "id", ⟨"post", "user_id"⟩⟩ : RelationDef).rtype ≠ .has_many →
      Oracle.processRow noParse Mex "user"
          (some (.obj [("posts", .obj [("id", .bool true)])]))
          [("posts", .str "oops(")] = [("posts", .null)])) :=
  ⟨rfl, rfl, rfl,
    claim_c9_malformed_json noParse Mex "user" userModel
      ⟨.has_many, "id", ⟨"post", "user_id"⟩⟩ "posts" [("id", .bool true)] "oops("
      [("posts", .str "oops(")] "posts" rfl rfl rfl⟩

/-- C10: in the row-store `createFindMany`, `limit: 0` and `skip: 0` are
falsy and produce exactly the query string of the omitted option — no
LIMIT or OFFSET clause is appended, so asking for zero rows yields the
unrestricted query. -/
theorem claim_c10_zero_limit_skip (models : Models) (modelName : String)
    (modelDef : ModelDefinition) (sel wq : Option JSValue)
    (ob : Option (List (String × String))) (lim sk : Option Int) :
    PostgresLegacy.createFindManyQueryString models modelName modelDef
        ⟨sel, wq, ob, some 0, sk⟩ =
      PostgresLegacy.createFindManyQueryString models modelName modelDef
        ⟨sel, wq, ob, none, sk⟩ ∧
    PostgresLegacy.createFindManyQueryString models modelName modelDef
        ⟨sel, wq, ob, lim, some 0⟩ =
      PostgresLegacy.createFindManyQueryString models modelName modelDef
        ⟨sel, wq, ob, lim, none⟩ := by
  constructor <;> simp [PostgresLegacy.createFindManyQueryString]

end Rlib
